import Mathlib

/-!
Shallow embedding of the invoice extraction core in `src/pdf_parser.py`
(`InvoiceParser`): the numeric normalizer `_parse_number`, the header
extractor `_parse_header_info`, the text-mode line-item extractor
`_parse_line_items`, the table-mode extractor `_parse_tables`, the totals
extractor `_parse_totals`, and the orchestration in `parse`.

Modelling conventions:
  * Python floats are modelled as exact rationals (`ℚ`); every concrete
    value occurring in the claims is exactly representable.
  * Python's `re` patterns used by the parser are a small fragment
    (literals, greedy character classes, `\s*`/`\s+`, one lazy `.+?`
    group and one comma-segment group); they are embedded as token lists
    with a backtracking matcher whose candidate order mirrors the
    leftmost / greedy-first / lazy-first preferences of `re.search`.
  * Character classes (`\d`, `\s`, `str.isdigit`) are modelled over the
    ASCII range; Unicode digit variants are outside the model (for such
    characters both the source and the model skip the row/line).
  * A Python statement that can raise `ValueError` (a bare `float(...)`
    call) is modelled in `Except Unit`; `Except.error ()` is the
    propagated exception.
-/

namespace PdfParser

instance {ε α : Type} [DecidableEq ε] [DecidableEq α] : DecidableEq (Except ε α) :=
  fun a b =>
    match a, b with
    | .error x, .error y =>
      if h : x = y then .isTrue (by rw [h]) else .isFalse (fun hh => by cases hh; exact h rfl)
    | .ok x, .ok y =>
      if h : x = y then .isTrue (by rw [h]) else .isFalse (fun hh => by cases hh; exact h rfl)
    | .error _, .ok _ => .isFalse (fun hh => by cases hh)
    | .ok _, .error _ => .isFalse (fun hh => by cases hh)

/-- Python's `\s` character class (ASCII whitespace). -/
def pyWs (c : Char) : Bool :=
  c = ' ' || c = '\t' || c = '\n' || c = '\r' || c = '\x0b' || c = '\x0c'

/-- `\d` (ASCII model). -/
def isDig (c : Char) : Bool := c.isDigit

/-- The class `[\d.]`. -/
def digDot (c : Char) : Bool := c.isDigit || c = '.'

/-- The class `[\d.,]`. -/
def digDotComma (c : Char) : Bool := c.isDigit || c = '.' || c = ','

/-- The class `[\d-]`. -/
def digHyphen (c : Char) : Bool := c.isDigit || c = '-'

/-- The class `[\+\d\s\(\)-]` used for phone numbers. -/
def phoneChar (c : Char) : Bool :=
  c = '+' || c.isDigit || pyWs c || c = '(' || c = ')' || c = '-'

/-- Python `str.strip()`. -/
def pyStrip (s : String) : String :=
  String.mk (((s.toList.dropWhile pyWs).reverse.dropWhile pyWs).reverse)

/-- Splitting a character list on `'\n'`, as Python `text.split('\n')`
does (empty pieces are kept; the empty text yields `[""]`). -/
def splitNl : List Char → List (List Char)
  | [] => [[]]
  | c :: cs =>
    if c = '\n' then [] :: splitNl cs
    else
      match splitNl cs with
      | s :: rest => (c :: s) :: rest
      | [] => [[c]]

/-- `text.split('\n')` followed by the per-line `line.strip()` that every
extractor performs first. -/
def pyLines (text : String) : List String :=
  (splitNl text.toList).map (fun cs => pyStrip (String.mk cs))

/-- Value of a string of decimal digits, as Python `int` reads it. -/
def digitsVal (ds : List Char) : ℕ := ds.foldl (fun a c => 10 * a + (c.toNat - 48)) 0

/-- The rational denoted by an integer part and a fractional part, both
strings of digits. -/
def floatVal (intPart fracPart : List Char) : ℚ :=
  mkRat (digitsVal intPart * 10 ^ fracPart.length + digitsVal fracPart)
    (10 ^ fracPart.length)

/-- Python `float()` restricted to the strings reaching it in this
program (characters drawn from `[\d.]` after comma→dot replacement):
defined iff the string has at least one digit and at most one dot;
`none` models a raised `ValueError`. -/
def pyFloat (cs : List Char) : Option ℚ :=
  if cs.all digDot && cs.any isDig && cs.count '.' ≤ 1 then
    some (floatVal (cs.takeWhile (fun c => c ≠ '.'))
      ((cs.dropWhile (fun c => c ≠ '.')).drop 1))
  else none

/-- `float(g.replace(',', '.'))` on a regex capture, as it appears
(unguarded) in `_parse_line_items` and `_parse_totals`. -/
def pyFloatComma (g : String) : Option ℚ :=
  pyFloat (g.toList.map (fun c => if c = ',' then '.' else c))

/-- Leftmost maximal run of characters satisfying `p`
(`re.search(r'[class]+', s)`). -/
def firstRun (p : Char → Bool) : List Char → Option (List Char)
  | [] => none
  | c :: cs => if p c then some (c :: cs.takeWhile p) else firstRun p cs

/-- The Python values `_parse_number` is fed with (table cells are
`None` or strings; the claims also exercise integers). -/
inductive PyVal
  | null
  | str (s : String)
  | int (n : Int)
deriving DecidableEq

/-- Python truthiness of such a value. -/
def pyTruthy : PyVal → Bool
  | .null => false
  | .str s => s ≠ ""
  | .int n => n ≠ 0

/-- Python `str(...)` of such a value. -/
def pyStr : PyVal → String
  | .null => "None"
  | .str s => s
  | .int n => toString n

/-- `str(value).strip()` followed by `re.sub(r'[₽\s]', '', ...)`: the
strip is subsumed by the substitution, which deletes `₽` and whitespace
everywhere. -/
def cleanedChars (s : String) : List Char :=
  s.toList.filter (fun c => !(c = '₽' || pyWs c))

/-- The cleaned string after `.replace(',', '.')`. -/
def rusReplaced (s : String) : List Char :=
  (cleanedChars s).map (fun c => if c = ',' then '.' else c)

/-- `InvoiceParser._parse_number`: coerce to string, drop `₽` and
whitespace, replace comma by dot, take the first `[\d.]+` run, parse it
as a float; any failure yields `0`.  The source guards its `float` call
with `try/except`, so this function is total. -/
def parse_number (value : PyVal) : ℚ :=
  if pyTruthy value then
    match firstRun digDot (rusReplaced (pyStr value)) with
    | none => 0
    | some run => (pyFloat run).getD 0
  else 0

/-! ### Regular-expression fragment

The patterns of `pdf_parser.py` only use literals, greedy character
classes (`[c]+`, `\s*`, `\s+`), one lazy any-char group (`.+?`) and one
comma-separated-segments group (`[^,]+(?:,[^,]+)*`).  A pattern is a
token list; the matcher explores candidate lengths for each token in
the same order as CPython's backtracking engine (greedy tokens longest
first, lazy tokens shortest first, earlier tokens' choices taking
priority), so the first success coincides with `re`'s match. -/

/-- One token of a pattern. -/
inductive Tok
  | lit (c : Char)
  | star (p : Char → Bool)
  | plus (p : Char → Bool)
  | capPlus (p : Char → Bool)
  | capLazyDot
  | capSegs

/-- Length of the prefix of `cs` consisting of the first `k` comma
separated segments of `cs` (with their `k - 1` inner commas). -/
def segPrefixLen (cs : List Char) (k : ℕ) : ℕ :=
  (((cs.splitOn ',').take k).map List.length).sum + (k - 1)

/-- Match a token list against a prefix of `cs`, returning the captured
groups of the first successful candidate assignment. -/
def mtoks : List Tok → List Char → Option (List String)
  | [], _ => some []
  | .lit _ :: _, [] => none
  | .lit c :: ts, d :: cs => if d = c then mtoks ts cs else none
  | .star p :: ts, cs =>
    (List.range ((cs.takeWhile p).length + 1)).reverse.findSome? fun k =>
      mtoks ts (cs.drop k)
  | .plus p :: ts, cs =>
    ((List.range (cs.takeWhile p).length).map (· + 1)).reverse.findSome? fun k =>
      mtoks ts (cs.drop k)
  | .capPlus p :: ts, cs =>
    ((List.range (cs.takeWhile p).length).map (· + 1)).reverse.findSome? fun k =>
      (mtoks ts (cs.drop k)).map (fun caps => String.mk (cs.take k) :: caps)
  | .capLazyDot :: ts, cs =>
    ((List.range (cs.takeWhile (fun c => c ≠ '\n')).length).map (· + 1)).findSome? fun k =>
      (mtoks ts (cs.drop k)).map (fun caps => String.mk (cs.take k) :: caps)
  | .capSegs :: ts, cs =>
    let nonempty := ((cs.splitOn ',').takeWhile (fun s => !s.isEmpty)).length
    (((List.range nonempty).map (· + 1)).reverse.findSome? fun k =>
      (mtoks ts (cs.drop (segPrefixLen cs k))).map
        (fun caps => String.mk (cs.take (segPrefixLen cs k)) :: caps))

/-- `re.search`: try the pattern at every start position, leftmost
first. -/
def rsearchAux (toks : List Tok) : List Char → Option (List String)
  | [] => mtoks toks []
  | c :: cs => (mtoks toks (c :: cs)).orElse fun _ => rsearchAux toks cs

/-- `re.search(pattern, s)` returning the captured groups. -/
def rsearch (toks : List Tok) (s : String) : Option (List String) :=
  rsearchAux toks s.toList

/-- `re.match(pattern, s)` (anchored at the start). -/
def rmatch (toks : List Tok) (s : String) : Option (List String) :=
  mtoks toks s.toList

/-- A sequence of literal tokens. -/
def lits (s : String) : List Tok := s.toList.map Tok.lit

/-- `r'№\s*([\d-]+)\s*от\s*([\d.]+)'` (invoice number and date). -/
def invoiceToks : List Tok :=
  [.lit '№', .star pyWs, .capPlus digHyphen, .star pyWs] ++ lits "от" ++
    [.star pyWs, .capPlus digDot]

/-- `r'Исполнитель:\s*(.+?)\s*,\s*ИНН\s*(\d+)'`. -/
def companyToks : List Tok :=
  lits "Исполнитель:" ++ [.star pyWs, .capLazyDot, .star pyWs, .lit ',', .star pyWs] ++
    lits "ИНН" ++ [.star pyWs, .capPlus isDig]

/-- `r'Заказчик:\s*(.+?)\s*,\s*ИНН\s*(\d+)'`. -/
def customerToks : List Tok :=
  lits "Заказчик:" ++ [.star pyWs, .capLazyDot, .star pyWs, .lit ',', .star pyWs] ++
    lits "ИНН" ++ [.star pyWs, .capPlus isDig]

/-- `r'Адрес:\s*([^,]+(?:,[^,]+)*)\s*,\s*тел\.\s*([\+\d\s\(\)-]+)'`. -/
def addressToks : List Tok :=
  lits "Адрес:" ++ [.star pyWs, .capSegs, .star pyWs, .lit ',', .star pyWs] ++
    lits "тел." ++ [.star pyWs, .capPlus phoneChar]

/-- The storage pattern of `_parse_line_items`:
`r'Хранение товаров от\s*([\d.]+)\s*до\s*([\d.]+)\s*([\d.,]+)\s*м³\s*([\d.,]+)\s*₽\s*([\d.,]+)\s*₽'`. -/
def storageToks : List Tok :=
  lits "Хранение товаров от" ++ [.star pyWs, .capPlus digDot, .star pyWs] ++
    lits "до" ++ [.star pyWs, .capPlus digDot, .star pyWs, .capPlus digDotComma, .star pyWs] ++
    lits "м³" ++ [.star pyWs, .capPlus digDotComma, .star pyWs, .lit '₽',
      .star pyWs, .capPlus digDotComma, .star pyWs, .lit '₽']

/-- The reception pattern:
`r'Приемка товара на склад и размещение\s*(\d+)\s*шт\.\s*([\d.,]+)\s*₽\s*([\d.,]+)\s*₽'`. -/
def receptionToks : List Tok :=
  lits "Приемка товара на склад и размещение" ++ [.star pyWs, .capPlus isDig, .star pyWs] ++
    lits "шт." ++ [.star pyWs, .capPlus digDotComma, .star pyWs, .lit '₽',
      .star pyWs, .capPlus digDotComma, .star pyWs, .lit '₽']

/-- The shipment pattern `r'Отгрузка FBO\s*(\d+)\s*от\s*([\d.]+)'`. -/
def shipmentToks : List Tok :=
  lits "Отгрузка FBO" ++ [.star pyWs, .capPlus isDig, .star pyWs] ++
    lits "от" ++ [.star pyWs, .capPlus digDot]

/-- The dispatch test `r'Приемка\s+\d+\s+от'` (used with `re.match`). -/
def recOpTestToks : List Tok :=
  lits "Приемка" ++ [.plus pyWs, .plus isDig, .plus pyWs] ++ lits "от"

/-- The reception-operation pattern `r'Приемка\s+(\d+)\s+от\s+([\d.]+)'`. -/
def recOpToks : List Tok :=
  lits "Приемка" ++ [.plus pyWs, .capPlus isDig, .plus pyWs] ++ lits "от" ++
    [.plus pyWs, .capPlus digDot]

/-- `r'Итого к оплате:\s*([\d.,]+)\s*₽'`. -/
def totalToks : List Tok :=
  lits "Итого к оплате:" ++ [.star pyWs, .capPlus digDotComma, .star pyWs, .lit '₽']

/-- `r'В том числе НДС:\s*([\d.,]+)\s*₽'`. -/
def vatToks : List Tok :=
  lits "В том числе НДС:" ++ [.star pyWs, .capPlus digDotComma, .star pyWs, .lit '₽']

/-- `r'Всего наименований\s*(\d+)\s*на сумму\s*([\d.,]+)\s*₽'`. -/
def itemsToks : List Tok :=
  lits "Всего наименований" ++ [.star pyWs, .capPlus isDig, .star pyWs] ++
    lits "на сумму" ++ [.star pyWs, .capPlus digDotComma, .star pyWs, .lit '₽']

/-- Whether `n` occurs as a contiguous sublist of `h`. -/
def substrAux (n : List Char) : List Char → Bool
  | [] => n.isPrefixOf []
  | c :: cs => n.isPrefixOf (c :: cs) || substrAux n cs

/-- Python's substring test `needle in line`. -/
def substrB (needle hay : String) : Bool := substrAux needle.toList hay.toList

/-! ### Data model (§3 of the implementation: the `self.data` record) -/

/-- One entry of `data['line_items']`, tagged by the `'type'` key. -/
inductive LineItem
  | storage (description fromDate toDate : String)
      (quantity : ℚ) (unit : String) (pricePerUnit totalAmount : ℚ)
  | reception (description : String) (quantity : ℕ) (unit : String)
      (pricePerUnit totalAmount : ℚ)
  | shipment (description fboNumber date : String) (totalAmount : ℚ)
  | receptionOperation (description receptionNumber date : String) (totalAmount : ℚ)
  | tableItem (rowNumber : ℕ) (description : String) (quantity : ℚ)
      (unit : String) (pricePerUnit totalAmount : ℚ)
deriving DecidableEq

/-- `data['invoice_info']`. -/
structure InvoiceInfo where
  number : Option String := none
  date : Option String := none
deriving DecidableEq

/-- `data['company_info']`. -/
structure CompanyInfo where
  name : Option String := none
  inn : Option String := none
deriving DecidableEq

/-- `data['customer_info']`. -/
structure CustomerInfo where
  name : Option String := none
  inn : Option String := none
  address : Option String := none
  phone : Option String := none
deriving DecidableEq

/-- `data['totals']`. -/
structure Totals where
  total_amount : Option ℚ := none
  vat_amount : Option ℚ := none
  total_items : Option ℕ := none
  total_sum : Option ℚ := none
deriving DecidableEq

/-- The full `self.data` record returned by `parse`. -/
structure ParseResult where
  invoice_info : InvoiceInfo
  company_info : CompanyInfo
  customer_info : CustomerInfo
  line_items : List LineItem
  totals : Totals
  parsed_at : String
deriving DecidableEq

/-! ### Header extractor: `_parse_header_info` -/

/-- Header state: the three dictionaries `_parse_header_info` mutates. -/
structure HeaderState where
  invoice_info : InvoiceInfo := {}
  company_info : CompanyInfo := {}
  customer_info : CustomerInfo := {}
deriving DecidableEq

/-- Processing of one (already stripped) line by `_parse_header_info`:
three independent `if` blocks, each overwriting its fields when its
marker is contained and its pattern matches. -/
def headerLineUpdate (st : HeaderState) (line : String) : HeaderState :=
  let st :=
    if substrB "Детализация к счету №" line then
      match rsearch invoiceToks line with
      | some caps =>
        { st with invoice_info := { number := some (caps.getD 0 ""),
                                    date := some (caps.getD 1 "") } }
      | none => st
    else st
  let st :=
    if substrB "Исполнитель:" line then
      match rsearch companyToks line with
      | some caps =>
        { st with company_info := { name := some (pyStrip (caps.getD 0 "")),
                                    inn := some (caps.getD 1 "") } }
      | none => st
    else st
  if substrB "Заказчик:" line then
    let st :=
      match rsearch customerToks line with
      | some caps =>
        { st with customer_info := { st.customer_info with
            name := some (pyStrip (caps.getD 0 "")),
            inn := some (caps.getD 1 "") } }
      | none => st
    match rsearch addressToks line with
    | some caps =>
      { st with customer_info := { st.customer_info with
          address := some (pyStrip (caps.getD 0 "")),
          phone := some (pyStrip (caps.getD 1 "")) } }
    | none => st
  else st

/-- `_parse_header_info(text)` starting from empty dictionaries. -/
def parse_header_info (text : String) : HeaderState :=
  (pyLines text).foldl headerLineUpdate {}

/-! ### Text-mode line items: `_parse_line_items`

`float(...)` is called here without a `try`, so a line can raise
`ValueError`; the per-line outcome is `Except Unit (Option LineItem)`. -/

/-- The `'Хранение товаров от'` branch. -/
def storageBranch (line : String) : Except Unit (Option LineItem) :=
  match rsearch storageToks line with
  | none => .ok none
  | some caps =>
    let g1 := caps.getD 0 ""
    let g2 := caps.getD 1 ""
    match pyFloatComma (caps.getD 2 ""), pyFloatComma (caps.getD 3 ""),
        pyFloatComma (caps.getD 4 "") with
    | some q, some p, some t =>
      .ok (some (.storage ("Хранение товаров от " ++ g1 ++ " до " ++ g2)
        g1 g2 q "м³" p t))
    | _, _, _ => .error ()

/-- The `'Приемка товара на склад'` branch. -/
def receptionBranch (line : String) : Except Unit (Option LineItem) :=
  match rsearch receptionToks line with
  | none => .ok none
  | some caps =>
    match pyFloatComma (caps.getD 1 ""), pyFloatComma (caps.getD 2 "") with
    | some p, some t =>
      .ok (some (.reception "Приемка товара на склад и размещение"
        (digitsVal (caps.getD 0 "").toList) "шт." p t))
    | _, _ => .error ()

/-- The `'Отгрузка FBO'` branch (no numeric conversion, never raises). -/
def shipmentBranch (line : String) : Except Unit (Option LineItem) :=
  match rsearch shipmentToks line with
  | none => .ok none
  | some caps =>
    .ok (some (.shipment ("Отгрузка FBO " ++ caps.getD 0 "")
      (caps.getD 0 "") (caps.getD 1 "") 0))

/-- The `'Приемка N от'` branch (no numeric conversion, never raises). -/
def recOpBranch (line : String) : Except Unit (Option LineItem) :=
  match rsearch recOpToks line with
  | none => .ok none
  | some caps =>
    .ok (some (.receptionOperation ("Приемка " ++ caps.getD 0 "")
      (caps.getD 0 "") (caps.getD 1 "") 0))

/-- The `if/elif` dispatch of `_parse_line_items` on one stripped line. -/
def lineItemOfLine (line : String) : Except Unit (Option LineItem) :=
  if substrB "Хранение товаров от" line then storageBranch line
  else if substrB "Приемка товара на склад" line then receptionBranch line
  else if substrB "Отгрузка FBO" line then shipmentBranch line
  else if (rmatch recOpTestToks line).isSome then recOpBranch line
  else .ok none

/-- `_parse_line_items(text)`: the list of items appended, or the
propagated exception of the first line that raises. -/
def parse_line_items (text : String) : Except Unit (List LineItem) :=
  (pyLines text).foldlM
    (fun acc l => (lineItemOfLine l).map (fun o => acc ++ o.toList)) []

/-! ### Totals extractor: `_parse_totals` (an `if/elif` chain per line,
with unguarded `float(...)` calls). -/

/-- Processing of one stripped line by `_parse_totals`. -/
def totalsLineUpdate (st : Totals) (line : String) : Except Unit Totals :=
  if substrB "Итого к оплате:" line then
    match rsearch totalToks line with
    | none => .ok st
    | some caps =>
      match pyFloatComma (caps.getD 0 "") with
      | some v => .ok { st with total_amount := some v }
      | none => .error ()
  else if substrB "В том числе НДС:" line then
    match rsearch vatToks line with
    | none => .ok st
    | some caps =>
      match pyFloatComma (caps.getD 0 "") with
      | some v => .ok { st with vat_amount := some v }
      | none => .error ()
  else if substrB "Всего наименований" line then
    match rsearch itemsToks line with
    | none => .ok st
    | some caps =>
      match pyFloatComma (caps.getD 1 "") with
      | some v => .ok { st with total_items := some (digitsVal (caps.getD 0 "").toList),
                                total_sum := some v }
      | none => .error ()
  else .ok st

/-- `_parse_totals(text)`. -/
def parse_totals (text : String) : Except Unit Totals :=
  (pyLines text).foldlM totalsLineUpdate {}

/-! ### Table-mode line items: `_parse_tables` -/

/-- A table cell as `pdfplumber` delivers it: a string or `None`. -/
abbrev Cell := Option String

/-- `str(cell or '')`. -/
def cellStr (c : Cell) : String := (c : Option String).getD ""

/-- Python truthiness of a cell. -/
def cellTruthy (c : Cell) : Bool :=
  match (c : Option String) with
  | some s => !s.isEmpty
  | none => false

/-- The cell as a `_parse_number` argument. -/
def cellVal (c : Cell) : PyVal :=
  match (c : Option String) with
  | some s => .str s
  | none => .null

/-- `str.isdigit` (ASCII model: non-empty and all decimal digits). -/
def pyIsdigit (s : String) : Bool := !s.isEmpty && s.toList.all Char.isDigit

/-- The header-row test
`any(header in str(row[0] or '') for header in ['№', 'Наименование'])`. -/
def isHeaderCell (s : String) : Bool := substrB "№" s || substrB "Наименование" s

/-- `item['description']`: the trimmed, string-coerced second cell. -/
def rowDescription (row : List Cell) : String := pyStrip (cellStr (row.getD 1 none))

/-- `item['quantity']` (`_parse_number(row[2]) if len(row) > 2 else 0`). -/
def rowQuantity (row : List Cell) : ℚ :=
  if 2 < row.length then parse_number (cellVal (row.getD 2 none)) else 0

/-- `item['unit']`. -/
def rowUnit (row : List Cell) : String :=
  if 3 < row.length then pyStrip (cellStr (row.getD 3 none)) else ""

/-- `item['price_per_unit']`. -/
def rowPrice (row : List Cell) : ℚ :=
  if 4 < row.length then parse_number (cellVal (row.getD 4 none)) else 0

/-- `item['total_amount']` (`_parse_number(row[5]) if len(row) > 5 else 0`). -/
def rowTotal (row : List Cell) : ℚ :=
  if 5 < row.length then parse_number (cellVal (row.getD 5 none)) else 0

/-- Processing of one table row by `_parse_tables`: `some item` iff the
row passes every guard and the final
`if item['description'] and item['total_amount'] > 0` test.  The
`try/except (ValueError, IndexError)` of the source makes the row
handler total. -/
def tableRowItem (row : List Cell) : Option LineItem :=
  if 5 ≤ row.length then
    if isHeaderCell (cellStr (row.getD 0 none)) then none
    else if cellTruthy (row.getD 0 none) && pyIsdigit (pyStr (cellVal (row.getD 0 none))) then
      if rowDescription row ≠ "" ∧ 0 < rowTotal row then
        some (.tableItem (digitsVal (pyStr (cellVal (row.getD 0 none))).toList)
          (rowDescription row) (rowQuantity row) (rowUnit row) (rowPrice row) (rowTotal row))
      else none
    else none
  else none

/-- `_parse_tables(tables)`: the items appended, in row order. -/
def parse_tables (tables : List (List (List Cell))) : List LineItem :=
  tables.flatMap (fun table => table.filterMap tableRowItem)

/-! ### Orchestration: `parse` -/

/-- `InvoiceParser.parse` as a function of the concatenated page text,
the extracted tables and the `datetime.now().isoformat()` timestamp
taken at construction.  Table items are appended while pages are read,
before the text passes; an exception from `_parse_line_items` or
`_parse_totals` propagates to the caller. -/
def parse (text : String) (tables : List (List (List Cell))) (now : String) :
    Except Unit ParseResult := do
  let tableItems := parse_tables tables
  let hdr := parse_header_info text
  let textItems ← parse_line_items text
  let tot ← parse_totals text
  return { invoice_info := hdr.invoice_info
           company_info := hdr.company_info
           customer_info := hdr.customer_info
           line_items := tableItems ++ textItems
           totals := tot
           parsed_at := now }

/-! ### Specification-side definitions used by the claims -/

/-- Erase the only impure field of a parse result. -/
def stripTime (r : ParseResult) : ParseResult := { r with parsed_at := "" }

/-- The record produced for the dual-source document of C8. -/
def dualDocResult : ParseResult where
  invoice_info := {}
  company_info := {}
  customer_info := {}
  line_items :=
    [.tableItem 1 "Хранение товаров" (mkRat 25 10) "м³" (mkRat 100 1) (mkRat 250 1),
      .storage "Хранение товаров от 01.01.2024 до 31.01.2024" "01.01.2024"
        "31.01.2024" (mkRat 25 10) "м³" (mkRat 100 1) (mkRat 250 1)]
  totals := {}
  parsed_at := "T"

/-- The record produced for an empty document (witness input). -/
def emptyDocResult : ParseResult where
  invoice_info := {}
  company_info := {}
  customer_info := {}
  line_items := []
  totals := {}
  parsed_at := "T"

/-- The mathematical value of a cleaned Russian-locale numeral (digits
with at most one comma as decimal separator): the integer part joined
with the fractional part.  This is the specification-side meaning the
normalizer is claimed to compute. -/
def ruValue (cs : List Char) : ℚ :=
  floatVal (cs.takeWhile (fun c => c ≠ ','))
    ((cs.dropWhile (fun c => c ≠ ',')).drop 1)

/-- The condition under which a totals line sets `total_amount`. -/
def totCond (l : String) : Prop :=
  substrB "Итого к оплате:" l = true ∧ (rsearch totalToks l).isSome = true

/-- The condition under which a totals line sets `vat_amount`: because
of the `elif`, the `Итого к оплате:` marker must be absent from the
line. -/
def vatCond (l : String) : Prop :=
  substrB "Итого к оплате:" l = false ∧ substrB "В том числе НДС:" l = true ∧
    (rsearch vatToks l).isSome = true

/-- The condition under which a totals line sets `total_items` and
`total_sum`: both earlier markers must be absent. -/
def cntCond (l : String) : Prop :=
  substrB "Итого к оплате:" l = false ∧ substrB "В том числе НДС:" l = false ∧
    substrB "Всего наименований" l = true ∧ (rsearch itemsToks l).isSome = true

/-! ### Helper lemmas -/

/-- `re.search(r'[class]+', s)` returns the whole string when every
character is in the class. -/
theorem firstRun_all {p : Char → Bool} {cs : List Char} (hne : cs ≠ [])
    (hall : cs.all p = true) : firstRun p cs = some cs := by
  cases cs with
  | nil => cases hne rfl
  | cons c cs =>
    simp only [List.all_cons, Bool.and_eq_true] at hall
    unfold firstRun
    rw [if_pos hall.1, List.takeWhile_eq_self_iff.mpr
      (fun x hx => List.all_eq_true.mp hall.2 x hx)]

/-- Characters of the run found by `firstRun` come from the input. -/
theorem firstRun_mem {p : Char → Bool} :
    ∀ {cs run : List Char}, firstRun p cs = some run → ∀ c ∈ run, c ∈ cs := by
  intro cs
  induction cs with
  | nil => intro run h; cases h
  | cons d ds ih =>
    intro run h c hc
    by_cases hd : p d = true
    · unfold firstRun at h
      rw [if_pos hd, Option.some.injEq] at h
      subst h
      rcases List.mem_cons.mp hc with rfl | hc
      · exact List.mem_cons_self _ _
      · exact List.mem_cons_of_mem _ (List.takeWhile_sublist _ |>.subset hc)
    · unfold firstRun at h
      rw [if_neg hd] at h
      exact List.mem_cons_of_mem _ (ih h c hc)

/-- Values produced by the `float` model are non-negative. -/
theorem floatVal_nonneg (a b : List Char) : 0 ≤ floatVal a b := by
  unfold floatVal
  rw [Rat.mkRat_eq_div]
  positivity

theorem pyFloat_nonneg {cs : List Char} {q : ℚ} (h : pyFloat cs = some q) : 0 ≤ q := by
  unfold pyFloat at h
  split at h
  · rw [Option.some.injEq] at h
    rw [← h]
    exact floatVal_nonneg _ _
  · cases h

/-- The normalizer never returns a negative value. -/
theorem parse_number_nonneg (v : PyVal) : 0 ≤ parse_number v := by
  unfold parse_number
  split
  · split
    · exact le_refl 0
    · next run hrun =>
      cases hq : pyFloat run with
      | none => simp [hq]
      | some q => simpa [hq] using pyFloat_nonneg hq
  · exact le_refl 0

/-! ### C1 -/

/-- C1: the claim states that `_parse_line_items` never raises — each
line either appends a fully-formed item or is skipped.  The code
violates this: on a storage line whose price uses the standard Russian
dot-grouped format `1.000,00 ₽`, the storage pattern matches and the
unguarded `float('1.000.00')` call raises `ValueError`, which
propagates out of `_parse_line_items` (and hence out of `parse`). -/
theorem C1_line_items_raise_value_error :
    parse_line_items
        "Хранение товаров от 01.01.2024 до 31.01.2024 2,50 м³ 1.000,00 ₽ 2.500,00 ₽"
      = .error () := by decide

/-! ### C5 -/

/-- C5: the two header test vectors: the invoice line sets
`number = "12345-1"` and `date = "01.02.2024"`; the customer line sets
name, INN, address and phone as stated. -/
theorem C5_header_vectors :
    (parse_header_info "Детализация к счету № 12345-1 от 01.02.2024").invoice_info
        = { number := some "12345-1", date := some "01.02.2024" } ∧
    (parse_header_info
        "Заказчик: ООО Ромашка , ИНН 7701234567 , Адрес: г. Москва, ул. Ленина 1 , тел. +7(900)123-45-67").customer_info
        = { name := some "ООО Ромашка", inn := some "7701234567",
            address := some "г. Москва, ул. Ленина 1",
            phone := some "+7(900)123-45-67" } := by
  exact ⟨by decide, by decide⟩

/-! ### C9 -/

/-- C9: the pipeline is deterministic — two runs on identical text and
tables agree on every field except `parsed_at`. -/
theorem C9_deterministic_mod_timestamp (text : String)
    (tables : List (List (List Cell))) (t₁ t₂ : String) :
    (parse text tables t₁).map stripTime = (parse text tables t₂).map stripTime := by
  unfold parse
  cases parse_line_items text <;> cases parse_totals text <;>
    simp [stripTime, Except.map, Except.bind, bind, pure, Except.pure]

/-! ### C10 -/

/-- C10: a row with exactly five cells can never emit a `table_item`:
the sixth cell is absent, `total_amount` defaults to `0`, and emission
requires `total_amount > 0`. -/
theorem C10_five_cell_row_never_emits (row : List Cell) (h : row.length = 5) :
    tableRowItem row = none := by
  simp [tableRowItem, rowTotal, h]

/-- Witness for C10 at a concrete five-cell row that passes every other
guard. -/
theorem C10_witness :
    tableRowItem [some "1", some "Погрузка", some "3", some "шт.", some "50,00"] = none :=
  C10_five_cell_row_never_emits _ (by decide)

/-! ### C3 -/

/-- The first-cell guard of `_parse_tables`
(`row[0] and str(row[0]).isdigit()`) coincides with the claim's
phrasing (the string-coerced cell is non-empty and all digits). -/
theorem rowDigitGuard (c : Cell) :
    (cellTruthy c && pyIsdigit (pyStr (cellVal c))) = pyIsdigit (cellStr c) := by
  match c with
  | none => rfl
  | some s => simp [cellTruthy, cellVal, pyStr, cellStr, pyIsdigit, Bool.and_assoc]

/-- C3: a table row emits an item iff it has at least five cells, its
first cell carries no header marker and is all digits, its trimmed
description is non-empty and its normalized sixth-cell amount is
positive; the sample row yields exactly the stated `table_item`, and a
zero-amount row yields nothing. -/
theorem C3_table_row_characterisation :
    (∀ row : List Cell, (tableRowItem row).isSome = true ↔
        (5 ≤ row.length ∧
          isHeaderCell (cellStr (row.getD 0 none)) = false ∧
          pyIsdigit (cellStr (row.getD 0 none)) = true ∧
          rowDescription row ≠ "" ∧
          0 < rowTotal row)) ∧
    tableRowItem [some "1", some "Погрузка", some "3", some "шт.", some "50,00", some "150,00"]
        = some (.tableItem 1 "Погрузка" 3 "шт." 50 150) ∧
    tableRowItem [some "1", some "Погрузка", some "3", some "шт.", some "50,00", some "0,00"]
        = none := by
  refine ⟨fun row => ?_, by decide, by decide⟩
  constructor
  · intro hsome
    unfold tableRowItem at hsome
    split_ifs at hsome with h1 h2 h3 h4
    all_goals first
      | exact ⟨h1, by simpa using h2, by rw [← rowDigitGuard]; exact h3, h4.1, h4.2⟩
      | simp at hsome
  · rintro ⟨h1, h2, h3, h4, h5⟩
    unfold tableRowItem
    rw [if_pos h1, if_neg (by rw [h2]; exact Bool.false_ne_true),
      if_pos (by rw [rowDigitGuard]; exact h3), if_pos ⟨h4, h5⟩]
    simp

/-- Witness for C3: the characterisation applied to the sample row. -/
theorem C3_witness :
    (tableRowItem [some "1", some "Погрузка", some "3", some "шт.", some "50,00",
        some "150,00"]).isSome = true :=
  (C3_table_row_characterisation.1 _).mpr (by decide)

/-! ### C4 -/

/-- C4: text-mode dispatch is an `if/elif` chain — a line is handled by
the first of the four branches whose containment (or, for the fourth,
anchored-match) test succeeds, later branches are never consulted, each
line contributes at most one item, and the sample storage line yields
exactly one `storage` item with quantity `2.5`, price `100`, total
`250`. -/
theorem C4_text_mode_precedence :
    (parse_line_items
          "Хранение товаров от 01.01.2024 до 31.01.2024 2,50 м³ 100,00 ₽ 250,00 ₽"
        = .ok [.storage "Хранение товаров от 01.01.2024 до 31.01.2024"
            "01.01.2024" "31.01.2024" 2.5 "м³" 100 250]) ∧
    (∀ line r, lineItemOfLine line = .ok r → r.toList.length ≤ 1) ∧
    (∀ line, substrB "Хранение товаров от" line = true →
      lineItemOfLine line = storageBranch line) ∧
    (∀ line, substrB "Хранение товаров от" line = false →
      substrB "Приемка товара на склад" line = true →
      lineItemOfLine line = receptionBranch line) ∧
    (∀ line, substrB "Хранение товаров от" line = false →
      substrB "Приемка товара на склад" line = false →
      substrB "Отгрузка FBO" line = true →
      lineItemOfLine line = shipmentBranch line) ∧
    (∀ line, substrB "Хранение товаров от" line = false →
      substrB "Приемка товара на склад" line = false →
      substrB "Отгрузка FBO" line = false →
      (rmatch recOpTestToks line).isSome = true →
      lineItemOfLine line = recOpBranch line) := by
  refine ⟨?_, ?_, ?_, ?_, ?_, ?_⟩
  · have h : parse_line_items
          "Хранение товаров от 01.01.2024 до 31.01.2024 2,50 м³ 100,00 ₽ 250,00 ₽"
        = .ok [.storage "Хранение товаров от 01.01.2024 до 31.01.2024"
            "01.01.2024" "31.01.2024" (mkRat 25 10) "м³" (mkRat 100 1) (mkRat 250 1)] := by
      decide
    rw [h]
    norm_num [Rat.mkRat_eq_div]
  · intro line r _
    cases r <;> simp
  · intro line h1
    simp [lineItemOfLine, h1]
  · intro line h1 h2
    simp [lineItemOfLine, h1, h2]
  · intro line h1 h2 h3
    simp [lineItemOfLine, h1, h2, h3]
  · intro line h1 h2 h3 h4
    simp [lineItemOfLine, h1, h2, h3, h4]

/-- Witness for C4: the precedence equations applied to the sample
line. -/
theorem C4_witness :
    lineItemOfLine "Хранение товаров от 01.01.2024 до 31.01.2024 2,50 м³ 100,00 ₽ 250,00 ₽"
      = storageBranch
          "Хранение товаров от 01.01.2024 до 31.01.2024 2,50 м³ 100,00 ₽ 250,00 ₽" :=
  C4_text_mode_precedence.2.2.1 _ (by decide)

/-! ### C6 -/

/-- C6: the normalizer is modelled by a total function (its only
fallible step, `float(...)`, is guarded by `try/except` in the source);
its result is always non-negative, and the empty string, `None`, `0`
and digit-free text all yield `0`. -/
theorem C6_parse_number_total_nonneg :
    (∀ v : PyVal, 0 ≤ parse_number v) ∧
    parse_number (.str "") = 0 ∧
    parse_number .null = 0 ∧
    parse_number (.int 0) = 0 ∧
    (∀ s : String, (∀ c ∈ s.toList, c.isDigit = false) → parse_number (.str s) = 0) := by
  refine ⟨parse_number_nonneg, by decide, by decide, by decide, ?_⟩
  intro s hs
  have hrep : ∀ c ∈ rusReplaced (pyStr (.str s)), isDig c = false := by
    intro c hc
    simp only [rusReplaced, cleanedChars, List.mem_map, List.mem_filter] at hc
    obtain ⟨a, ⟨ha, _⟩, rfl⟩ := hc
    by_cases hca : a = ','
    · simp [hca, isDig]
    · rw [if_neg hca]
      simp [isDig, hs a ha]
  unfold parse_number
  split
  · cases hr : firstRun digDot (rusReplaced (pyStr (.str s))) with
    | none => simp [hr]
    | some run =>
      have hany : run.any isDig = false := by
        rw [← Bool.not_eq_true, List.any_eq_true]
        rintro ⟨x, hx, hdig⟩
        rw [hrep x (firstRun_mem hr x hx)] at hdig
        cases hdig
      have hnone : pyFloat run = none := by
        unfold pyFloat
        rw [if_neg]
        simp [hany]
      simp [hr, hnone]
  · rfl

/-- Witness for C6 on the digit-free input `"xyz"`. -/
theorem C6_witness :
    0 ≤ parse_number (.str "xyz") ∧ parse_number (.str "xyz") = 0 :=
  ⟨C6_parse_number_total_nonneg.1 _,
    C6_parse_number_total_nonneg.2.2.2.2 "xyz" (by decide)⟩

/-! ### C8 -/

/-- C8: text-mode and table-mode items are concatenated, never merged:
every successful parse has `line_items = table items ++ text items`,
and the document whose text line and table row nominally describe the
same storage charge yields exactly two items, one `table_item` and one
`storage`. -/
theorem C8_no_dedup :
    (∀ text tables now r, parse text tables now = .ok r →
      ∃ items, parse_line_items text = .ok items ∧
        r.line_items = parse_tables tables ++ items) ∧
    (∃ r, parse "Хранение товаров от 01.01.2024 до 31.01.2024 2,50 м³ 100,00 ₽ 250,00 ₽"
          [[[some "1", some "Хранение товаров", some "2,5", some "м³",
            some "100,00", some "250,00"]]] "T"
        = .ok r ∧
      r.line_items = [.tableItem 1 "Хранение товаров" 2.5 "м³" 100 250,
        .storage "Хранение товаров от 01.01.2024 до 31.01.2024" "01.01.2024"
          "31.01.2024" 2.5 "м³" 100 250]) := by
  constructor
  · intro text tables now r h
    unfold parse at h
    cases hli : parse_line_items text with
    | error e => rw [hli] at h; cases h
    | ok items =>
      cases htot : parse_totals text with
      | error e => rw [hli, htot] at h; cases h
      | ok tot =>
        rw [hli, htot] at h
        simp only [bind, Except.bind, pure, Except.pure, Except.ok.injEq] at h
        exact ⟨items, rfl, by rw [← h]⟩
  · refine ⟨dualDocResult, by decide, ?_⟩
    norm_num [dualDocResult, Rat.mkRat_eq_div]

/-- Witness for C8's decomposition at a concrete document. -/
theorem C8_witness :
    ∃ items, parse_line_items "" = .ok items ∧
      emptyDocResult.line_items = parse_tables [] ++ items :=
  C8_no_dedup.1 "" [] "T" _ (by decide)

/-! ### C2 -/

/-- `takeWhile` only depends on the predicate's values on the list. -/
theorem takeWhile_congr_mem {α : Type} {p q : α → Bool} :
    ∀ {l : List α}, (∀ x ∈ l, p x = q x) → l.takeWhile p = l.takeWhile q := by
  intro l
  induction l with
  | nil => intro _; rfl
  | cons a l ih =>
    intro h
    simp only [List.takeWhile_cons]
    rw [h a (List.mem_cons_self a l),
      ih (fun x hx => h x (List.mem_cons_of_mem a hx))]

/-- `dropWhile` only depends on the predicate's values on the list. -/
theorem dropWhile_congr_mem {α : Type} {p q : α → Bool} :
    ∀ {l : List α}, (∀ x ∈ l, p x = q x) → l.dropWhile p = l.dropWhile q := by
  intro l
  induction l with
  | nil => intro _; rfl
  | cons a l ih =>
    intro h
    simp only [List.dropWhile_cons]
    rw [h a (List.mem_cons_self a l),
      ih (fun x hx => h x (List.mem_cons_of_mem a hx))]

/-- C2 counterexample: the claim includes dot-grouped inputs such as
`"1.234,56 ₽"`, but on that input the normalizer returns `0`, not the
mathematically equivalent `1234.56`: after comma→dot replacement the
extracted token `1.234.56` carries two dots and `float()` raises, which
the normalizer's guard turns into `0`. -/
theorem C2_counterexample :
    parse_number (.str "1.234,56 ₽") = 0 ∧ (0 : ℚ) ≠ 1234.56 :=
  ⟨by decide, by norm_num⟩

/-- C2 amended: the normalizer returns the mathematically equivalent
value for every well-formed Russian-locale numeric string without dot
thousands grouping — after removing `₽` and whitespace the input reads
as digits with at most one comma (space grouping, comma decimal
separator, currency symbol and embedded whitespace all allowed);
dot-grouped inputs instead yield `0` (see the counterexample). -/
theorem C2_parse_number_ru_locale (s : String)
    (hall : ∀ c ∈ cleanedChars s, c.isDigit = true ∨ c = ',')
    (hcnt : (cleanedChars s).count ',' ≤ 1)
    (hdig : ∃ c ∈ cleanedChars s, c.isDigit = true) :
    parse_number (.str s) = ruValue (cleanedChars s) := by
  obtain ⟨c0, hc0, hc0d⟩ := hdig
  have hfdig : ∀ c : Char, c.isDigit = true → (if c = ',' then '.' else c) = c := by
    intro c hc
    rw [if_neg]
    intro h
    rw [h] at hc
    cases hc
  have hsne : pyTruthy (.str s) = true := by
    simp only [pyTruthy, decide_eq_true_eq]
    intro h
    rw [h] at hc0
    simp [cleanedChars] at hc0
  have hmapall : (rusReplaced s).all digDot = true := by
    rw [List.all_eq_true]
    intro x hx
    rw [rusReplaced, List.mem_map] at hx
    obtain ⟨a, ha, rfl⟩ := hx
    rcases hall a ha with hd | hc
    · rw [hfdig a hd]
      simp [digDot, hd]
    · rw [hc]
      simp [digDot]
  have hmapne : rusReplaced s ≠ [] := by
    rw [rusReplaced]
    simp only [ne_eq, List.map_eq_nil_iff]
    exact List.ne_nil_of_mem hc0
  have hmapany : (rusReplaced s).any isDig = true := by
    rw [List.any_eq_true]
    refine ⟨c0, ?_, by simp [isDig, hc0d]⟩
    rw [rusReplaced, List.mem_map]
    exact ⟨c0, hc0, hfdig c0 hc0d⟩
  have hmapcnt : (rusReplaced s).count '.' ≤ 1 := by
    rw [rusReplaced, List.count_eq_countP, List.countP_map]
    have : List.countP ((fun x => x == '.') ∘ fun c => if c = ',' then '.' else c)
        (cleanedChars s) = List.countP (fun x => x == ',') (cleanedChars s) := by
      apply List.countP_congr
      intro x hx
      rcases hall x hx with hd | hc
      · simp only [Function.comp_apply, hfdig x hd]
        constructor <;> intro h <;> exfalso
        · rw [beq_iff_eq] at h
          rw [h] at hd
          cases hd
        · rw [beq_iff_eq] at h
          rw [h] at hd
          cases hd
      · rw [hc]
        simp
    rw [this, ← List.count_eq_countP]
    exact hcnt
  have hrun : firstRun digDot (rusReplaced s) = some (rusReplaced s) :=
    firstRun_all hmapne hmapall
  have hpf : pyFloat (rusReplaced s)
      = some (floatVal ((rusReplaced s).takeWhile (fun c => c ≠ '.'))
          (((rusReplaced s).dropWhile (fun c => c ≠ '.')).drop 1)) := by
    unfold pyFloat
    rw [if_pos]
    rw [hmapall, hmapany]
    simpa using hmapcnt
  have hpred : ∀ x ∈ cleanedChars s,
      (decide ((if x = ',' then '.' else x) ≠ '.')) = decide (x ≠ ',') := by
    intro x hx
    rcases hall x hx with hd | hc
    · rw [hfdig x hd]
      rcases eq_or_ne x ',' with h | h
      · rw [h] at hd; cases hd
      · have hdot : x ≠ '.' := by
          intro hh
          rw [hh] at hd
          cases hd
        simp [h, hdot]
    · rw [hc]
      simp
  have htake : (rusReplaced s).takeWhile (fun c => c ≠ '.')
      = (cleanedChars s).takeWhile (fun c => c ≠ ',') := by
    rw [rusReplaced, List.takeWhile_map]
    simp only [Function.comp_def]
    rw [takeWhile_congr_mem hpred]
    have hid : ∀ x ∈ (cleanedChars s).takeWhile (fun c => decide (c ≠ ',')),
        (fun c => if c = ',' then '.' else c) x = id x := by
      intro x hx
      have hmem : x ∈ cleanedChars s := (List.takeWhile_sublist _).subset hx
      rcases hall x hmem with hd | hc
      · exact hfdig x hd
      · rw [hc] at hx
        have := List.mem_takeWhile_imp hx
        simp at this
    rw [List.map_congr_left hid, List.map_id]
  have hnocomma : ∀ x ∈ ((cleanedChars s).dropWhile (fun c => c ≠ ',')).drop 1,
      x ≠ ',' := by
    cases hdw : (cleanedChars s).dropWhile (fun c => c ≠ ',') with
    | nil => intro x hx; cases hx
    | cons hd tl =>
      intro x hx h
      rw [h] at hx
      have hhd : hd = ',' := by
        have := List.head?_dropWhile_not (fun c => decide (c ≠ ',')) (cleanedChars s)
        rw [hdw] at this
        simpa using this
      have hsplit := List.takeWhile_append_dropWhile
        (p := fun c => decide (c ≠ ',')) (l := cleanedChars s)
      have hcnt2 : ((cleanedChars s).takeWhile (fun c => c ≠ ',')).count ','
          + ((cleanedChars s).dropWhile (fun c => c ≠ ',')).count ','
          ≤ 1 := by
        rw [← List.count_append, hsplit]
        exact hcnt
      have htw : ((cleanedChars s).takeWhile (fun c => c ≠ ',')).count ',' = 0 := by
        rw [List.count_eq_zero]
        intro hmem
        have := List.mem_takeWhile_imp hmem
        simp at this
      rw [htw, hdw, hhd] at hcnt2
      simp only [List.count_cons_self, Nat.zero_add] at hcnt2
      have : tl.count ',' = 0 := by omega
      rw [List.count_eq_zero] at this
      simp only [List.drop_succ_cons, List.drop_zero] at hx
      exact this hx
  have hdrop : ((rusReplaced s).dropWhile (fun c => c ≠ '.')).drop 1
      = ((cleanedChars s).dropWhile (fun c => c ≠ ',')).drop 1 := by
    rw [rusReplaced, List.dropWhile_map]
    simp only [Function.comp_def]
    rw [dropWhile_congr_mem hpred]
    rw [← List.map_drop]
    have hid : ∀ x ∈ ((cleanedChars s).dropWhile (fun c => decide (c ≠ ','))).drop 1,
        (fun c => if c = ',' then '.' else c) x = id x := by
      intro x hx
      have hmem : x ∈ cleanedChars s :=
        (List.dropWhile_sublist _).subset ((List.drop_subset _ _) hx)
      rcases hall x hmem with hd | hc
      · exact hfdig x hd
      · exact absurd hc (hnocomma x hx)
    rw [List.map_congr_left hid, List.map_id]
  unfold parse_number
  rw [if_pos hsne]
  simp only [pyStr]
  rw [hrun]
  simp only []
  rw [hpf]
  simp only [Option.getD_some]
  rw [ruValue, htake, hdrop]

/-- Witness for C2 on the space-grouped `"1 234,56 ₽"`, whose value is
`1234.56`. -/
theorem C2_witness :
    parse_number (.str "1 234,56 ₽") = ruValue (cleanedChars "1 234,56 ₽") ∧
    ruValue (cleanedChars "1 234,56 ₽") = 1234.56 := by
  refine ⟨C2_parse_number_ru_locale "1 234,56 ₽" (by decide) (by decide) (by decide), ?_⟩
  have h : ruValue (cleanedChars "1 234,56 ₽") = mkRat 123456 100 := by decide
  rw [h]
  norm_num [Rat.mkRat_eq_div]

/-! ### C7 -/

/-- Effect of one totals line on each field, when it does not raise. -/
theorem totalsLineUpdate_fields {st T : Totals} {l : String}
    (h : totalsLineUpdate st l = .ok T) :
    (T.total_amount.isSome = true ↔ st.total_amount.isSome = true ∨ totCond l) ∧
    (T.vat_amount.isSome = true ↔ st.vat_amount.isSome = true ∨ vatCond l) ∧
    (T.total_items.isSome = true ↔ st.total_items.isSome = true ∨ cntCond l) ∧
    (T.total_sum.isSome = true ↔ st.total_sum.isSome = true ∨ cntCond l) := by
  unfold totalsLineUpdate at h
  split_ifs at h with h1 h2 h3
  · split at h
    · next hr =>
      injection h with h
      subst h
      simp [totCond, vatCond, cntCond, h1, hr]
    · next caps hr =>
      split at h
      · next v hv =>
        injection h with h
        subst h
        simp [totCond, vatCond, cntCond, h1, hr]
      · cases h
  · split at h
    · next hr =>
      injection h with h
      subst h
      simp [totCond, vatCond, cntCond, h1, h2, hr]
    · next caps hr =>
      split at h
      · next v hv =>
        injection h with h
        subst h
        simp [totCond, vatCond, cntCond, h1, h2, hr]
      · cases h
  · split at h
    · next hr =>
      injection h with h
      subst h
      simp [totCond, vatCond, cntCond, h1, h2, h3, hr]
    · next caps hr =>
      split at h
      · next v hv =>
        injection h with h
        subst h
        simp [totCond, vatCond, cntCond, h1, h2, h3, hr]
      · cases h
  · injection h with h
    subst h
    simp [totCond, vatCond, cntCond, h1, h2, h3]

/-- Accumulated effect of a list of totals lines. -/
theorem totals_fold :
    ∀ (lines : List String) (st T : Totals),
    lines.foldlM totalsLineUpdate st = .ok T →
    ((T.total_amount.isSome = true ↔
        st.total_amount.isSome = true ∨ ∃ l ∈ lines, totCond l) ∧
     (T.vat_amount.isSome = true ↔
        st.vat_amount.isSome = true ∨ ∃ l ∈ lines, vatCond l) ∧
     (T.total_items.isSome = true ↔
        st.total_items.isSome = true ∨ ∃ l ∈ lines, cntCond l) ∧
     (T.total_sum.isSome = true ↔
        st.total_sum.isSome = true ∨ ∃ l ∈ lines, cntCond l)) := by
  intro lines
  induction lines with
  | nil =>
    intro st T h
    simp only [List.foldlM_nil] at h
    injection h with h
    subst h
    simp
  | cons l ls ih =>
    intro st T h
    rw [List.foldlM_cons] at h
    cases hu : totalsLineUpdate st l with
    | error e => rw [hu] at h; cases h
    | ok stNext =>
      rw [hu] at h
      have hbind : ls.foldlM totalsLineUpdate stNext = .ok T := by
        simpa [bind, Except.bind] using h
      obtain ⟨i1, i2, i3, i4⟩ := ih stNext T hbind
      obtain ⟨p1, p2, p3, p4⟩ := totalsLineUpdate_fields hu
      refine ⟨?_, ?_, ?_, ?_⟩
      · rw [i1, p1, List.exists_mem_cons_iff]
        exact or_assoc
      · rw [i2, p2, List.exists_mem_cons_iff]
        exact or_assoc
      · rw [i3, p3, List.exists_mem_cons_iff]
        exact or_assoc
      · rw [i4, p4, List.exists_mem_cons_iff]
        exact or_assoc

/-- C7 counterexample: the claim says each totals field is set exactly
when its marker is present and its pattern matches, regardless of the
other markers on the same line.  On a line carrying both the total and
the VAT markers, the `elif` chain consumes the line for the total and
`vat_amount` stays unset even though the VAT marker is present and the
VAT pattern matches. -/
theorem C7_counterexample :
    parse_totals "Итого к оплате: 100,00 ₽ В том числе НДС: 20,00 ₽"
        = .ok { total_amount := some 100 } ∧
    substrB "В том числе НДС:"
        "Итого к оплате: 100,00 ₽ В том числе НДС: 20,00 ₽" = true ∧
    (rsearch vatToks "Итого к оплате: 100,00 ₽ В том числе НДС: 20,00 ₽").isSome
        = true :=
  ⟨by decide, by decide, by decide⟩

/-- C7 amended: on every run of `_parse_totals` that completes without
a numeric-conversion error, each field is set exactly when some line
satisfies its condition, where the conditions carry the `elif`
precedence (`Итого к оплате:` over `В том числе НДС:` over `Всего
наименований`): a field's marker must be present and its pattern must
match on a line containing no earlier-precedence marker. -/
theorem C7_totals_fields (text : String) (T : Totals)
    (h : parse_totals text = .ok T) :
    (T.total_amount.isSome = true ↔ ∃ l ∈ pyLines text, totCond l) ∧
    (T.vat_amount.isSome = true ↔ ∃ l ∈ pyLines text, vatCond l) ∧
    (T.total_items.isSome = true ↔ ∃ l ∈ pyLines text, cntCond l) ∧
    (T.total_sum.isSome = true ↔ ∃ l ∈ pyLines text, cntCond l) := by
  have := totals_fold (pyLines text) {} T h
  simpa using this

/-- Witness for C7's amended characterisation on the single-marker text
`"Итого к оплате: 5,00 ₽"`. -/
theorem C7_witness :
    (({ total_amount := some 5 } : Totals).total_amount.isSome = true ↔
      ∃ l ∈ pyLines "Итого к оплате: 5,00 ₽", totCond l) :=
  (C7_totals_fields "Итого к оплате: 5,00 ₽" { total_amount := some 5 }
    (by decide)).1

end PdfParser
